import Mathlib

/-!
# pdf2data — Streaming Job Orchestrator: shallow embedding and verification

This file embeds, in Lean, the client-side job-orchestration logic of the
pdf2data frontend:

* the frame reassembly / event classification loop of
  `frontend/src/pages/ExtractPage.tsx` (`handleExtract`), and
* the blocking parse controller with deadline + reconciliation of
  `ParseExecutionPage` (`executeParsing`, `checkParsingStatus`,
  `handleCancel`).

JavaScript builtins that the code relies on (`JSON.parse`, `String.trim`,
template-literal coercion, truthiness) are modelled explicitly below.  Byte
streams are modelled as lists of characters: the source decodes with
`TextDecoder(..., \x7b stream: true \x7d)`, which never splits a code point
across decode outputs, so chunking at the byte level coincides with chunking
at the character level.

Wall-clock timestamps prefixed by `addLog` are not modelled; a log entry is
the pair (isCommand, message) passed to `addLog`.
-/

namespace Pdf2Data

/-! ## JSON values and `JSON.parse`

Model of the JSON values produced by `JSON.parse`.  Numbers keep their raw
numeral text (the service payloads carry integical numerals, for which the
JavaScript number-to-string conversion is the identity). -/

inductive JVal where
  | jnull
  | jbool (b : Bool)
  | jnum (raw : String)
  | jstr (s : String)
  | jarr (elems : List JVal)
  | jobj (fields : List (String × JVal))
deriving Repr

def hexVal (c : Char) : Option Nat :=
  if '0' ≤ c ∧ c ≤ '9' then some (c.toNat - '0'.toNat)
  else if 'a' ≤ c ∧ c ≤ 'f' then some (c.toNat - 'a'.toNat + 10)
  else if 'A' ≤ c ∧ c ≤ 'F' then some (c.toNat - 'A'.toNat + 10)
  else none

/-- JSON whitespace: space, tab, line feed, carriage return. -/
def jsonWs (c : Char) : Bool :=
  c = ' ' ∨ c = '\t' ∨ c = '\n' ∨ c = '\r'

def skipWs (cs : List Char) : List Char := cs.dropWhile jsonWs

/-- Body of a JSON string literal, after the opening quote.  Returns the
decoded characters and the rest of the input past the closing quote.
Unescaped control characters are rejected, as `JSON.parse` does. -/
def parseStringBody : Nat → List Char → Option (List Char × List Char)
  | 0, _ => none
  | _ + 1, [] => none
  | fuel + 1, c :: rest =>
    if c = '\"' then some ([], rest)
    else if c = '\\' then
      match rest with
      | [] => none
      | e :: rest2 =>
        let esc : Option (Char × List Char) :=
          if e = '\"' then some ('\"', rest2)
          else if e = '\\' then some ('\\', rest2)
          else if e = '/' then some ('/', rest2)
          else if e = 'b' then some ('\x08', rest2)
          else if e = 'f' then some ('\x0c', rest2)
          else if e = 'n' then some ('\n', rest2)
          else if e = 'r' then some ('\r', rest2)
          else if e = 't' then some ('\t', rest2)
          else if e = 'u' then
            match rest2 with
            | h1 :: h2 :: h3 :: h4 :: rest3 =>
              match hexVal h1, hexVal h2, hexVal h3, hexVal h4 with
              | some a, some b, some c2, some d =>
                some (Char.ofNat (((a * 16 + b) * 16 + c2) * 16 + d), rest3)
              | _, _, _, _ => none
            | _ => none
          else none
        match esc with
        | none => none
        | some (ch, r) =>
          match parseStringBody fuel r with
          | none => none
          | some (s, r2) => some (ch :: s, r2)
    else if c.toNat < 0x20 then none
    else
      match parseStringBody fuel rest with
      | none => none
      | some (s, r2) => some (c :: s, r2)

/-- Optional exponent part of a JSON number.  `pre` is the numeral parsed so
far; if the input does not start an exponent it is left untouched, and a
malformed exponent makes the whole numeral fail, as in `JSON.parse`. -/
def parseExpPart (pre : List Char) (r : List Char) :
    Option (List Char × List Char) :=
  match r with
  | e :: rest =>
    if e = 'e' ∨ e = 'E' then
      match rest with
      | s :: rest2 =>
        if s.isDigit then
          some (pre ++ e :: s :: rest2.takeWhile Char.isDigit,
                rest2.dropWhile Char.isDigit)
        else if s = '+' ∨ s = '-' then
          match rest2 with
          | d2 :: rest3 =>
            if d2.isDigit then
              some (pre ++ e :: s :: d2 :: rest3.takeWhile Char.isDigit,
                    rest3.dropWhile Char.isDigit)
            else none
          | [] => none
        else none
      | [] => none
    else some (pre, r)
  | [] => some (pre, [])

/-- JSON number grammar: `-? (0 | [1-9][0-9]*) frac? exp?`.
Returns the raw numeral characters and the rest of the input. -/
def parseNumber (input : List Char) : Option (List Char × List Char) :=
  let (sign, r0) : List Char × List Char :=
    match input with
    | '-' :: r => (['-'], r)
    | r => ([], r)
  match r0 with
  | [] => none
  | d :: r1 =>
    if ¬ d.isDigit then none
    else
      let (intRest, r2) : List Char × List Char :=
        if d = '0' then ([], r1)
        else (r1.takeWhile Char.isDigit, r1.dropWhile Char.isDigit)
      match r2 with
      | '.' :: fr =>
        match fr with
        | f :: fr2 =>
          if f.isDigit then
            parseExpPart
              (sign ++ d :: intRest ++ '.' :: f :: fr2.takeWhile Char.isDigit)
              (fr2.dropWhile Char.isDigit)
          else none
        | [] => none
      | _ => parseExpPart (sign ++ d :: intRest) r2

mutual

/-- One JSON value (leading whitespace allowed). -/
def parseVal : Nat → List Char → Option (JVal × List Char)
  | 0, _ => none
  | fuel + 1, input =>
    match skipWs input with
    | [] => none
    | c :: rest =>
      if c = '\"' then
        match parseStringBody fuel rest with
        | none => none
        | some (s, r) => some (.jstr (String.mk s), r)
      else if c = Char.ofNat 123 then -- opening brace
        match skipWs rest with
        | d :: r2 =>
          if d = Char.ofNat 125 then some (.jobj [], r2)  -- closing brace
          else
            match parseFields fuel (d :: r2) with
            | none => none
            | some (fs, r3) => some (.jobj fs, r3)
        | [] => none
      else if c = '[' then
        match skipWs rest with
        | d :: r2 =>
          if d = ']' then some (.jarr [], r2)
          else
            match parseElems fuel (d :: r2) with
            | none => none
            | some (vs, r3) => some (.jarr vs, r3)
        | [] => none
      else if c = 't' then
        match rest with
        | 'r' :: 'u' :: 'e' :: r => some (.jbool true, r)
        | _ => none
      else if c = 'f' then
        match rest with
        | 'a' :: 'l' :: 's' :: 'e' :: r => some (.jbool false, r)
        | _ => none
      else if c = 'n' then
        match rest with
        | 'u' :: 'l' :: 'l' :: r => some (.jnull, r)
        | _ => none
      else if c = '-' ∨ c.isDigit then
        match parseNumber (c :: rest) with
        | none => none
        | some (raw, r) => some (.jnum (String.mk raw), r)
      else none

/-- Comma-separated object members, ending at the closing brace. -/
def parseFields : Nat → List Char → Option (List (String × JVal) × List Char)
  | 0, _ => none
  | fuel + 1, input =>
    match skipWs input with
    | '\"' :: rest =>
      match parseStringBody fuel rest with
      | none => none
      | some (k, r1) =>
        match skipWs r1 with
        | ':' :: r2 =>
          match parseVal fuel r2 with
          | none => none
          | some (v, r3) =>
            match skipWs r3 with
            | ',' :: r4 =>
              match parseFields fuel r4 with
              | none => none
              | some (fs, r5) => some ((String.mk k, v) :: fs, r5)
            | c :: r4 =>
              if c = Char.ofNat 125 then some ([(String.mk k, v)], r4)
              else none
            | [] => none
        | _ => none
    | _ => none

/-- Comma-separated array elements, ending at the closing bracket. -/
def parseElems : Nat → List Char → Option (List JVal × List Char)
  | 0, _ => none
  | fuel + 1, input =>
    match parseVal fuel input with
    | none => none
    | some (v, r1) =>
      match skipWs r1 with
      | ',' :: r2 =>
        match parseElems fuel r2 with
        | none => none
        | some (vs, r3) => some (v :: vs, r3)
      | ']' :: r2 => some ([v], r2)
      | _ => none

end

/-- Model of `JSON.parse`: one JSON value covering the entire input. -/
def jsonParse (s : String) : Option JVal :=
  match parseVal (2 * s.length + 8) s.data with
  | some (v, rest) => if (skipWs rest).isEmpty then some v else none
  | none => none

/-! ## JavaScript value helpers

Property lookup, truthiness, and template-literal string coercion, as used by
the source on values returned from `JSON.parse`. -/

/-- Last-binding-wins lookup: `JSON.parse` keeps the last of duplicate keys. -/
def jlookup (fields : List (String × JVal)) (k : String) : Option JVal :=
  fields.foldl (fun acc kv => if kv.1 = k then some kv.2 else acc) none

/-- Property access `v.f` on a parsed JSON value: defined only for objects; on any other
value the property is `undefined` (`none`).  (The one exception the source
exercises, `.length`, is modelled separately.) -/
def getProp : JVal → String → Option JVal
  | .jobj fs, k => jlookup fs k
  | _, _ => none

/-- Whether a raw JSON numeral denotes zero: every mantissa digit is `0`. -/
def zeroNumeral (raw : String) : Bool :=
  ((raw.data.takeWhile (fun c => ¬ (c = 'e' ∨ c = 'E'))).filter
    Char.isDigit).all (· = '0')

/-- JavaScript truthiness of a parsed JSON value. -/
def truthy : JVal → Bool
  | .jnull => false
  | .jbool b => b
  | .jnum raw => ¬ zeroNumeral raw
  | .jstr s => ¬ s.isEmpty
  | .jarr _ => true
  | .jobj _ => true

mutual

/-- Template-literal coercion of a parsed JSON value.  Numbers are shown as
their raw numeral (exact for the canonical integer numerals the services
emit); arrays join their elements with commas, `null` elements showing as
empty, per `Array.prototype.toString`. -/
def jsToString : JVal → String
  | .jnull => "null"
  | .jbool true => "true"
  | .jbool false => "false"
  | .jnum raw => raw
  | .jstr s => s
  | .jobj _ => "[object Object]"
  | .jarr xs => String.intercalate "," (jsElemStrings xs)

def jsElemStrings : List JVal → List String
  | [] => []
  | .jnull :: rest => "" :: jsElemStrings rest
  | v :: rest => jsToString v :: jsElemStrings rest

end

/-- Coercion of a possibly-`undefined` value, as in a template literal. -/
def displayOpt : Option JVal → String
  | none => "undefined"
  | some v => jsToString v

/-- Evaluation of `expr || fallback` under template-literal coercion. -/
def orElseDisplay (v : Option JVal) (fallback : String) : String :=
  match v with
  | none => fallback
  | some x => if truthy x then jsToString x else fallback

/-- Truthiness of an optional string (query parameters: absent or empty
strings are falsy). -/
def optTruthy : Option String → Bool
  | none => false
  | some s => ¬ s.isEmpty

/-- Model of `String.prototype.trim`: strip leading and trailing whitespace.  (The
JavaScript definition covers all Unicode whitespace; the characters below
are the ones that can occur in the event stream.) -/
def jsWs (c : Char) : Bool :=
  c = ' ' ∨ c = '\t' ∨ c = '\n' ∨ c = '\r' ∨ c = '\x0b' ∨ c = '\x0c'

def jsTrim (cs : List Char) : List Char :=
  ((cs.dropWhile jsWs).reverse.dropWhile jsWs).reverse

/-- Whether `pat` occurs as a contiguous run inside the second list. -/
def listHasInfix (pat : List Char) : List Char → Bool
  | [] => pat.isEmpty
  | c :: rest => pat.isPrefixOf (c :: rest) || listHasInfix pat rest

/-- Model of `a.includes(b)` on strings. -/
def jsIncludes (s pat : String) : Bool :=
  listHasInfix pat.data s.data

/-- ASCII `String.prototype.toUpperCase`. -/
def jsUpper (s : String) : String := String.mk (s.data.map Char.toUpper)

/-! ## Frame Reassembler

`ExtractPage.handleExtract` keeps a tail `buffer` of not-yet-terminated
characters; on each chunk it appends, splits on newline, processes every
complete line and retains the final fragment:

    buffer += chunk;
    const lines = buffer.split('\n');
    buffer = lines.pop() || '';

`splitLines cs = (complete lines, trailing fragment)` models exactly
`split('\n')` followed by `pop`. -/

def splitLines : List Char → List (List Char) × List Char
  | [] => ([], [])
  | c :: rest =>
    let r := splitLines rest
    if c = '\n' then ([] :: r.1, r.2)
    else
      match r with
      | ([], tl) => ([], c :: tl)
      | (l :: ls, tl) => ((c :: l) :: ls, tl)

/-- Feeding one chunk into the reassembler from a given tail buffer. -/
def feedChunk (buf chunk : List Char) : List (List Char) × List Char :=
  splitLines (buf ++ chunk)

/-- Feeding a whole sequence of chunks; returns all complete lines in order
and the final tail buffer. -/
def feedAll (buf : List Char) : List (List Char) → List (List Char) × List Char
  | [] => ([], buf)
  | c :: cs =>
    let r1 := feedChunk buf c
    let r2 := feedAll r1.2 cs
    (r1.1 ++ r2.1, r2.2)

theorem splitLines_cons_nl (rest : List Char) :
    splitLines ('\n' :: rest) =
      ([] :: (splitLines rest).1, (splitLines rest).2) := by
  simp [splitLines]

theorem splitLines_cons_ne (c : Char) (hc : c ≠ '\n') (rest : List Char) :
    splitLines (c :: rest) =
      (match splitLines rest with
       | ([], tl) => ([], c :: tl)
       | (l :: ls, tl) => ((c :: l) :: ls, tl)) := by
  simp [splitLines, hc]

theorem splitLines_append (a b : List Char) :
    splitLines (a ++ b) =
      ((splitLines a).1 ++ (splitLines ((splitLines a).2 ++ b)).1,
       (splitLines ((splitLines a).2 ++ b)).2) := by
  induction a with
  | nil => simp [splitLines]
  | cons c rest ih =>
    by_cases hc : c = '\n'
    · subst hc
      rw [List.cons_append, splitLines_cons_nl, splitLines_cons_nl, ih]
      simp
    · rw [List.cons_append, splitLines_cons_ne c hc, splitLines_cons_ne c hc, ih]
      rcases hr : splitLines rest with ⟨ls, tl⟩
      cases ls with
      | nil =>
        rcases hx : splitLines (tl ++ b) with ⟨xs, xt⟩
        cases xs with
        | nil => simp [splitLines_cons_ne c hc, hx]
        | cons x xs' => simp [splitLines_cons_ne c hc, hx]
      | cons l ls' =>
        rcases hx : splitLines (tl ++ b) with ⟨xs, xt⟩
        simp [hx]

/-- The trailing fragment never contains a newline. -/
theorem splitLines_tail_no_newline (a : List Char) :
    '\n' ∉ (splitLines a).2 := by
  induction a with
  | nil => simp [splitLines]
  | cons c rest ih =>
    by_cases hc : c = '\n'
    · subst hc; simpa [splitLines_cons_nl] using ih
    · rw [splitLines_cons_ne c hc]
      rcases hr : splitLines rest with ⟨ls, tl⟩
      rw [hr] at ih
      cases ls with
      | nil =>
        simp only [List.mem_cons, not_or]
        exact ⟨fun hh => hc hh.symm, ih⟩
      | cons l ls' => simpa using ih

/-- A newline-free string is all tail: no complete line comes out of it. -/
theorem splitLines_of_no_newline (a : List Char) (h : '\n' ∉ a) :
    splitLines a = ([], a) := by
  induction a with
  | nil => rfl
  | cons c rest ih =>
    simp only [List.mem_cons, not_or] at h
    have hc : c ≠ '\n' := fun hh => h.1 hh.symm
    rw [splitLines_cons_ne c hc, ih h.2]

/-- Chunk-splitting invariance of the reassembler: feeding any chunk
sequence from a newline-free tail yields exactly the lines and tail of the
concatenation. -/
theorem feedAll_eq_splitLines (chunks : List (List Char)) (buf : List Char)
    (h : '\n' ∉ buf) :
    feedAll buf chunks = splitLines (buf ++ chunks.flatten) := by
  induction chunks generalizing buf with
  | nil => simp [feedAll, splitLines_of_no_newline buf h]
  | cons c cs ih =>
    have htail := splitLines_tail_no_newline (buf ++ c)
    have h2 : feedAll buf (c :: cs)
        = ((splitLines (buf ++ c)).1 ++ (feedAll (splitLines (buf ++ c)).2 cs).1,
           (feedAll (splitLines (buf ++ c)).2 cs).2) := rfl
    rw [h2, ih _ htail,
        show buf ++ (c :: cs).flatten = (buf ++ c) ++ cs.flatten by simp,
        splitLines_append (buf ++ c) cs.flatten]

/-! ## Event Classifier and Streaming Job Controller (`ExtractPage.handleExtract`)

Page state: `logs` records the `(isCommand, message)` arguments of every
`addLog` that was not suppressed by the reset flag; `error` is the `error`
React state; `isReset` is `isResetRef.current`. -/

structure EPage where
  loading : Bool
  logs : List (Bool × String)
  error : Option String
  isReset : Bool
  networkCalls : Nat
deriving Repr

/-- Model of `addLog`: suppressed after `resetTerminal` set the reset flag.  The
rendered entry prefixes a wall-clock timestamp (commands prefix the shell
prompt); timestamps are ambient and not modelled. -/
def addLogE (s : EPage) (isCmd : Bool) (msg : String) : EPage :=
  if s.isReset then s else { s with logs := s.logs ++ [(isCmd, msg)] }

def setErrorE (s : EPage) (msg : String) : EPage := { s with error := some msg }

/-- The record marker of the stream, `data: ` (six characters). -/
def streamTag : List Char := "data: ".data

/-- Check of the record marker, then `line.slice(6).trim()`. -/
def recordPayload (line : List Char) : Option (List Char) :=
  if streamTag.isPrefixOf line then some (jsTrim (line.drop 6)) else none

/-- Validation that the payload starts with \x7b and ends with \x7d. -/
def bracesOk (p : List Char) : Bool :=
  (match p.head? with | some c => c = Char.ofNat 123 | none => false) &&
  (match p.getLast? with | some c => c = Char.ofNat 125 | none => false)

/-- Strict-equality test `data.type === t` where `t` is a string literal. -/
def isTypeTag (data : JVal) (t : String) : Bool :=
  match getProp data "type" with
  | some (.jstr s) => s = t
  | _ => false

/-- The verdict of the classifier on one complete line, per §4.2 of the spec:
`log`/`success`/`error` events; anything else (non-record lines, empty
payloads, malformed or unrecognised records) produces no event. -/
inductive ClassifiedEvent where
  | log (message : String)
  | success (numPages method numChars : String)
  | error (message : String)
deriving Repr, DecidableEq

def classifyLine (mode : String) (line : List Char) : Option ClassifiedEvent :=
  match recordPayload line with
  | none => none
  | some p =>
    if p.isEmpty then none
    else if ¬ bracesOk p then none
    else
      match jsonParse (String.mk p) with
      | none => none
      | some data =>
        if isTypeTag data "log" then
          some (.log (displayOpt (getProp data "message")))
        else if isTypeTag data "success" then
          match getProp data "data" with
          | none => none
          | some .jnull => none
          | some d =>
            some (.success (orElseDisplay (getProp d "num_pages") "unknown")
                           (orElseDisplay (getProp d "method") mode)
                           (orElseDisplay (getProp d "num_chars") "unknown"))
        else if isTypeTag data "error" then
          some (.error (displayOpt (getProp data "message")))
        else none

/-- The warning the catch handler logs for a line whose processing threw.
(`line.length` counts UTF-16 units in the source; identical to the
character count for the payloads at hand.) -/
def warnLine (line : List Char) : String :=
  "⚠ Warning: Received malformed data (" ++ toString line.length ++
    " chars), continuing..."

/-- The body of the `for (const line of lines)` loop of `handleExtract`,
acting on the page state.  Notes kept faithful to the source:

* a payload failing the brace validation is skipped with only a console
  diagnostic (`console.warn`) — no Job Log entry;
* a payload that makes `JSON.parse` throw is skipped with exactly one
  warning Job Log entry (from the catch handler);
* a `success` record missing its `data` object logs the first completion
  line and then raises a `TypeError` evaluating `data.data.num_pages`,
  landing in the same catch handler;
* an `error` record appends two log lines and sets the error state — and
  does *not* break the loop;
* a record with any other discriminator matches no branch and is skipped
  silently;
* the delayed redirect transcript emitted via `setTimeout` after a success
  record is an asynchronous effect outside this per-line fold. -/
def eStep (mode : String) (s : EPage) (line : List Char) : EPage :=
  match recordPayload line with
  | none => s
  | some p =>
    if p.isEmpty then s
    else if ¬ bracesOk p then s
    else
      match jsonParse (String.mk p) with
      | none => addLogE s false (warnLine line)
      | some data =>
        if isTypeTag data "log" then
          addLogE s false (displayOpt (getProp data "message"))
        else if isTypeTag data "success" then
          match getProp data "data" with
          | none =>
            addLogE (addLogE s false "✓ Extraction completed successfully!")
              false (warnLine line)
          | some .jnull =>
            addLogE (addLogE s false "✓ Extraction completed successfully!")
              false (warnLine line)
          | some d =>
            let s1 := addLogE s false "✓ Extraction completed successfully!"
            let s2 := addLogE s1 false ("✓ Processed " ++
              orElseDisplay (getProp d "num_pages") "unknown" ++ " pages")
            let s3 := addLogE s2 false ("✓ Method used: " ++
              orElseDisplay (getProp d "method") mode)
            let s4 := addLogE s3 false ("✓ Total characters: " ++
              orElseDisplay (getProp d "num_chars") "unknown")
            addLogE s4 false "✓ Ready for parsing stage"
        else if isTypeTag data "error" then
          let s1 := addLogE s false ("✗ ERROR: " ++
            displayOpt (getProp data "message"))
          let s2 := addLogE s1 false "✗ Process terminated with exit code 1"
          setErrorE s2 "Extraction failed. Please try again."
        else s

def eRunLines (mode : String) (s : EPage) (lines : List (List Char)) : EPage :=
  lines.foldl (eStep mode) s

def eventsOfLines (mode : String) (lines : List (List Char)) :
    List ClassifiedEvent :=
  lines.filterMap (classifyLine mode)

/-- End-to-end stream processing: reassemble the chunk sequence into lines,
classify each line; the final partial line stays in the tail buffer. -/
def streamRun (mode : String) (chunks : List (List Char)) :
    List ClassifiedEvent × List Char :=
  (eventsOfLines mode (feedAll [] chunks).1, (feedAll [] chunks).2)

/-- Model of `handleExtract` up to issuing the request: the re-entrancy guard
`if (!fileId || loading) return;`, then reset-flag clearing, state reset,
the three opening transcript lines and the streaming request. -/
def handleExtractStart (mode : String) (fileId : Option String) (s : EPage) :
    EPage :=
  if ¬ optTruthy fileId ∨ s.loading then s
  else
    { loading := true
      error := none
      isReset := false
      logs := [(false, "PDF2Data Extraction Terminal v1.0.0"),
               (false, "Connecting to extraction service..."),
               (true, "extract --mode=" ++ mode ++ " --file=" ++
                  fileId.getD "")]
      networkCalls := s.networkCalls + 1 }

/-- Model of `resetTerminal`: sets the reset flag (silencing `addLog`), aborts the
in-flight request (whose `AbortError` handler only calls the now-silenced
`addLog`), and clears the page state. -/
def resetTerminal (s : EPage) : EPage :=
  { s with isReset := true, loading := false, logs := [], error := none }

/-! ## Blocking Job Controller with Reconciliation (`ParseExecutionPage`)

The page mounts, logs two opening lines, and invokes `executeParsing` once.
The controller state below records the `addLog` transcript, the React
`loading`/`error`/`success` state, whether the deadline `setTimeout` is
still pending, whether `abortControllerRef.current` is set, and whether the
parse request is in flight; plus instrumentation counting network calls and
reconciliation reads, recording every non-null `setError` value in order
(`error` is the last of them) and whether the in-flight request was aborted.

A modelling point used throughout: `executeParsing` and
`checkParsingStatus` are the first-render closures (invoked from the mount
effect), so the `timeoutId` they read is the initial `null` — every
`if (timeoutId) clearTimeout(timeoutId)` in them is unreachable and the
deadline timer is never cleared.  Aborting the pending parse fetch rejects
its promise with an `AbortError` that reaches the catch of
`executeParsing` in the following microtask, i.e. immediately after the
synchronous remainder of the aborting handler. -/

structure PCfg where
  fileId : Option String
  parserChoice : Option String
  prompt : Option String
  jsonSchema : Option String
  pageNum : Option Nat
deriving Repr

def pname (cfg : PCfg) : String := cfg.parserChoice.getD ""

/-- Thirty seconds for most parsers, 120 for the AI one, 90 for
`DaybookParser` (held in milliseconds); recomputed identically in
`checkParsingStatus`. -/
def timeoutDuration (p : String) : Nat :=
  if p = "AIParser" then 120000
  else if p = "DaybookParser" then 90000
  else 30000

structure PCState where
  logs : List (Bool × String)
  loading : Bool
  error : Option String
  errorHistory : List String
  success : Bool
  timerPending : Bool
  abortRef : Bool
  requestInFlight : Bool
  inFlightAborted : Bool
  networkCalls : Nat
  reconReads : Nat
deriving Repr

def addLogP (s : PCState) (isCmd : Bool) (msg : String) : PCState :=
  { s with logs := s.logs ++ [(isCmd, msg)] }

def setErrorP (s : PCState) (msg : String) : PCState :=
  { s with error := some msg, errorHistory := s.errorHistory ++ [msg] }

/-- A settled parse response. -/
structure HttpRes where
  ok : Bool
  status : Nat
  body : String
deriving Repr

/-- Outcome of the reconciliation read of `API_ENDPOINTS.data(fileId)`. -/
inductive StoreRead where
  | ok (body : String)
  | httpErr
  | netErr
deriving Repr

def cancelledMsg : String := "Parsing was cancelled."

def timeoutDocMsg (p : String) : String :=
  "Parsing timed out after " ++ toString (timeoutDuration p / 1000) ++
  " seconds. The document may be too large or complex for this parser."

def timeoutOverloadedMsg (p : String) : String :=
  "Parsing timed out after " ++ toString (timeoutDuration p / 1000) ++
  " seconds. The parser may be overloaded or there might be an issue with the document."

/-- Model of `executeParsing` up to issuing the request: re-entrancy guard, local
parameter validation, opening transcript, abort controller and deadline
timer, optional AI-parameter lines, then the parse request. -/
def executeParsingStart (cfg : PCfg) (s : PCState) : PCState :=
  if s.loading && s.abortRef then s
  else if ¬ optTruthy cfg.fileId ∨ ¬ optTruthy cfg.parserChoice then
    let s1 := addLogP s false "✗ ERROR: Missing required parameters"
    { setErrorP s1 "Missing required parameters" with loading := false }
  else
    let s1 := { s with error := none }
    let s2 := addLogP s1 false "PDF2Data Parser Terminal v1.0.0"
    let s3 := addLogP s2 false "Initializing parsing environment..."
    let s4 := addLogP s3 true
      ("parse --parser=" ++ pname cfg ++ " --file=" ++ cfg.fileId.getD "")
    let s5 := addLogP s4 false "Looking for extracted text file..."
    let s6 := addLogP s5 false "Preparing data for parsing..."
    let s7 := { s6 with abortRef := true, timerPending := true }
    let s8 := if optTruthy cfg.prompt then
        addLogP s7 false "✓ Custom AI prompt provided" else s7
    let s9 := if optTruthy cfg.jsonSchema then
        addLogP s8 false "✓ Custom JSON schema provided" else s8
    let s10 := match cfg.pageNum with
      | some n => addLogP s9 false
          ("✓ Image analysis enabled for page " ++ toString (n + 1))
      | none => s9
    let s11 := addLogP s10 false "Sending parsing request to server..."
    { s11 with networkCalls := s11.networkCalls + 1, requestInFlight := true }

/-- The message of the `Error` thrown for a non-2xx parse response: the
structured `detail` field when the body is JSON with a truthy `detail`,
else the raw non-empty body, else a generic line naming the status. -/
def serverErrMsg (status : Nat) (body : String) : String :=
  match jsonParse body with
  | some j =>
    match getProp j "detail" with
    | some d => if truthy d then jsToString d
                else "Server error: " ++ toString status
    | none => "Server error: " ++ toString status
  | none => if body.isEmpty then "Server error: " ++ toString status else body

/-- The parser-dependent error banner chosen by the catch handler. -/
def enhancedErrorMessage (cfg : PCfg) (errMsg : String) : String :=
  if pname cfg = "AIParser" then
    if jsIncludes errMsg "API key" then
      "OpenAI API key error. Please check your OPENAI_API_KEY environment variable."
    else if jsIncludes errMsg "JSON" then
      "AI response format error. Try simplifying your JSON schema or prompt."
    else if jsIncludes errMsg "quota" then
      "OpenAI quota exceeded. Please check your API usage limits."
    else if optTruthy cfg.prompt || optTruthy cfg.jsonSchema then
      "AI parsing failed with custom configuration. Try using default settings or simplify your prompt/schema."
    else
      "AI parsing failed. Please check your OpenAI API key and try again."
  else
    "Parsing failed. Please try again or select a different parser."

/-- The wording of a host-raised exception (failed `res.json()`, or
`.toUpperCase()` on a non-string) reaching the generic catch handler;
environment-specific, and no claim depends on it. -/
def hostErrText : String := "host-defined exception message"

/-- The catch handler of `executeParsing` for a non-abort error, plus its
`finally`.  The stale `if (timeoutId) clearTimeout(...)` clears nothing. -/
def catchGeneric (cfg : PCfg) (errMsg : String) (s : PCState) : PCState :=
  let s1 := addLogP s false "✗ ERROR: Parsing failed!"
  let s2 := addLogP s1 false ("✗ " ++ errMsg)
  let s3 := addLogP s2 false "✗ Process terminated with exit code 1"
  let s4 := setErrorP s3 (enhancedErrorMessage cfg errMsg)
  { s4 with loading := false, abortRef := false }

/-- The catch handler of `executeParsing` for the `AbortError` of an
aborted parse fetch, plus its `finally`. -/
def onAbortError (s : PCState) : PCState :=
  let s1 := addLogP s false "✗ Parsing cancelled by user"
  let s2 := addLogP s1 false "✗ Process terminated"
  let s3 := setErrorP s2 cancelledMsg
  { s3 with loading := false, abortRef := false, requestInFlight := false }

/-- Resumption of `executeParsing` when the parse response settles.  The
deadline timer stays pending (stale clear).  A success response logs the
result transcript and resolves Succeeded; `res.json()` failing, or
`.toUpperCase()` on a non-string `extraction_mode_used`, throws into the
generic catch; a non-2xx response throws the server-derived message.  The
delayed redirect transcript (`setTimeout`) is not modelled. -/
def onResponse (cfg : PCfg) (r : HttpRes) (s : PCState) : PCState :=
  let s0 := { s with requestInFlight := false }
  if r.ok then
    match jsonParse r.body with
    | none => catchGeneric cfg hostErrText s0
    | some j =>
      let s1 := addLogP s0 false "✓ Parsing completed successfully!"
      let s2 := addLogP s1 false
        ("✓ Parser used: " ++ displayOpt (getProp j "parser_used"))
      match getProp j "extraction_mode_used" with
      | some (.jbool _) | some (.jnum _) | some (.jarr _) | some (.jobj _) =>
        catchGeneric cfg hostErrText s2
      | em =>
        let emStr := match em with
          | some (.jstr t) => jsUpper t
          | _ => "undefined"
        let s3 := addLogP s2 false ("✓ Extraction method: " ++ emStr)
        let s4 := addLogP s3 false "✓ Data saved to database"
        let s5 := addLogP s4 false
          ("✓ Output file: " ++ displayOpt (getProp j "saved_as"))
        let s6 := addLogP s5 false "✓ Process completed!"
        { s6 with success := true, loading := false, abortRef := false }
  else
    catchGeneric cfg (serverErrMsg r.status r.body) s0

/-- Truthiness test `data.tables && data.tables.length > 0` (an undefined
length compares false). -/
def jsLengthPos : JVal → Bool
  | .jarr xs => 0 < xs.length
  | .jstr t => 0 < t.length
  | _ => false

def tablesNonempty (d : JVal) : Bool :=
  match getProp d "tables" with
  | none => false
  | some t => truthy t && jsLengthPos t

/-- Reconciliation success path: transcript, Succeeded, stale clear no-op;
the in-flight request is left untouched. -/
def successRecon (d : JVal) (s : PCState) : PCState :=
  let lenStr := match getProp d "tables" with
    | some (.jarr xs) => toString xs.length
    | some (.jstr t) => toString t.length
    | _ => "undefined"
  let s1 := addLogP s false "✅ Parsing completed successfully!"
  let s2 := addLogP s1 false
    ("✅ Found " ++ lenStr ++ " tables with parsed data")
  let s3 := addLogP s2 false "✅ Data saved to database"
  let s4 := addLogP s3 false "✅ Process completed!"
  { s4 with success := true, loading := false }

/-- Reconciliation failure tail, shared by the not-completed and the
read-failed branches: transcript, abort of the in-flight request, timeout
error banner — then the `AbortError` of the aborted request lands in
the catch of `executeParsing`, which overwrites the banner. -/
def reconFailTail (cfg : PCfg) (firstLine msg : String) (s : PCState) :
    PCState :=
  let s1 := addLogP s false firstLine
  let s2 := addLogP s1 false ("✗ Parser took longer than " ++
    toString (timeoutDuration (pname cfg) / 1000) ++ " seconds")
  let s3 := addLogP s2 false "✗ Process terminated due to timeout"
  let wasInFlight := s3.abortRef && s3.requestInFlight
  let s4 := if s3.abortRef then
      { s3 with abortRef := false,
                inFlightAborted := s3.inFlightAborted || wasInFlight,
                requestInFlight := false }
    else s3
  let s5 := setErrorP s4 msg
  let s6 := { s5 with loading := false }
  if wasInFlight then onAbortError s6 else s6

/-- Model of `checkParsingStatus`: one read of the persisted document state.  A
non-OK response skips the success check and falls into the not-completed
branch; a rejected read (or a body `res.json()` cannot parse) lands in the
catch branch with its own wording. -/
def checkParsingStatus (cfg : PCfg) (store : StoreRead) (s : PCState) :
    PCState :=
  if ¬ optTruthy cfg.fileId then s
  else
    let s1 := addLogP s false "🔍 Checking parsing status..."
    let s2 := { s1 with reconReads := s1.reconReads + 1 }
    match store with
    | .ok body =>
      match jsonParse body with
      | none =>
        reconFailTail cfg "✗ Error checking parsing status"
          (timeoutOverloadedMsg (pname cfg)) s2
      | some d =>
        if tablesNonempty d then successRecon d s2
        else
          reconFailTail cfg "✗ Parsing did not complete successfully"
            (timeoutDocMsg (pname cfg)) s2
    | .httpErr =>
      reconFailTail cfg "✗ Parsing did not complete successfully"
        (timeoutDocMsg (pname cfg)) s2
    | .netErr =>
      reconFailTail cfg "✗ Error checking parsing status"
        (timeoutOverloadedMsg (pname cfg)) s2

/-- The deadline callback.  It never aborts the request itself: it warns
and delegates to `checkParsingStatus` — and only when the abort-controller
ref is still set; after a settled response the ref is null and the firing
is a no-op. -/
def onTimerFires (cfg : PCfg) (store : StoreRead) (s : PCState) : PCState :=
  let s0 := { s with timerPending := false }
  if s0.abortRef then
    let s1 := addLogP s0 false
      "⚠ Request timed out, but parsing may still be running..."
    let s2 := addLogP s1 false "⚠ Checking if parsing completed successfully..."
    checkParsingStatus cfg store s2
  else s0

/-- Model of `handleCancel` while parsing is active: one log line, then
an abort;
the rejected parse fetch reaches the catch of `executeParsing`.  When
parsing is
not active the button navigates back, which is outside this model. -/
def handleCancel (s : PCState) : PCState :=
  if s.loading && s.abortRef then
    let s1 := addLogP s false "User requested cancellation..."
    let wasInFlight := s1.requestInFlight
    let s2 := { s1 with inFlightAborted := s1.inFlightAborted || wasInFlight,
                        requestInFlight := false }
    if wasInFlight then onAbortError s2 else s2
  else s

/-- External events driving one controller instance.  A response can only
settle while the request is in flight; the deadline can only fire while
pending. -/
inductive PEvent where
  | start
  | response (r : HttpRes)
  | timerFires (store : StoreRead)
  | cancel

def pstep (cfg : PCfg) (s : PCState) : PEvent → PCState
  | .start => executeParsingStart cfg s
  | .response r => if s.requestInFlight then onResponse cfg r s else s
  | .timerFires store => if s.timerPending then onTimerFires cfg store s else s
  | .cancel => handleCancel s

/-- Page state at mount: the effect logs two opening lines and schedules
`executeParsing`; `loading` starts true. -/
def pInit : PCState :=
  { logs := [(false, "=== Parse Execution Page Loaded ==="),
             (false, "Initializing parser execution environment...")]
    loading := true, error := none, errorHistory := [], success := false
    timerPending := false, abortRef := false, requestInFlight := false
    inFlightAborted := false, networkCalls := 0, reconReads := 0 }

def prun (cfg : PCfg) (evs : List PEvent) : PCState :=
  evs.foldl (pstep cfg) pInit

/-- A configuration with just a document id and a parser choice. -/
def basicCfg (fid p : String) : PCfg :=
  { fileId := some fid, parserChoice := some p,
    prompt := none, jsonSchema := none, pageNum := none }

/-- Concrete configurations used in scenario theorems. -/
def cfgAI : PCfg := basicCfg "doc1" "AIParser"

def cfgDefault : PCfg := basicCfg "doc1" "SimpleParser"

/-- Whether `extraction_mode_used` has a shape on which the success
transcript completes without throwing (absent, `null`, or a string). -/
def emSafe (j : JVal) : Bool :=
  match getProp j "extraction_mode_used" with
  | none => true
  | some .jnull => true
  | some (.jstr _) => true
  | some _ => false

/-- What `result.extraction_mode_used?.toUpperCase()` displays as in the
throw-free cases. -/
def emDisplay (j : JVal) : String :=
  match getProp j "extraction_mode_used" with
  | some (.jstr t) => jsUpper t
  | _ => "undefined"

/-- A record line the classifier cannot use: the payload fails the brace
validation, or `JSON.parse` throws on it, or its discriminator is none of
`log`/`success`/`error`.  (Empty payloads are skipped by design and a
`success` record lacking its `data` object fails midway through a known
branch, so neither counts here.) -/
def malformedRecord (line : List Char) : Bool :=
  match recordPayload line with
  | none => false
  | some p =>
    if p.isEmpty then false
    else if ¬ bracesOk p then true
    else
      match jsonParse (String.mk p) with
      | none => true
      | some j =>
        !(isTypeTag j "log" || isTypeTag j "success" || isTypeTag j "error")

/-! ### Concrete fixtures for scenario theorems and witnesses -/

def eInit : EPage :=
  { loading := false, logs := [], error := none, isReset := false,
    networkCalls := 0 }

def okParseBody : String :=
  "\x7b\"parser_used\":\"SimpleParser\",\"extraction_mode_used\":\"digital\",\"saved_as\":\"out.json\"\x7d"

def okParseJ : JVal :=
  .jobj [("parser_used", .jstr "SimpleParser"),
         ("extraction_mode_used", .jstr "digital"),
         ("saved_as", .jstr "out.json")]

def okParseRes : HttpRes := { ok := true, status := 200, body := okParseBody }

def tablesEmptyBody : String := "\x7b\"tables\":[]\x7d"

def tablesOneBody : String := "\x7b\"tables\":[\x7b\"n\":1\x7d]\x7d"

def detail500Body : String := "\x7b\"detail\":\"bad schema\"\x7d"

def detail500J : JVal := .jobj [("detail", .jstr "bad schema")]

def res500 : HttpRes := { ok := false, status := 500, body := detail500Body }

def mysteryLine : List Char := ("data: \x7b\"type\":\"mystery\"\x7d").data

def noBraceLine : List Char := ("data: notjson").data

def badJsonLine : List Char := ("data: \x7bnotjson\x7d").data

def errorRecordLine : List Char :=
  ("data: \x7b\"type\":\"error\",\"message\":\"boom\"\x7d").data

def afterLogLine : List Char :=
  ("data: \x7b\"type\":\"log\",\"message\":\"after\"\x7d").data

/-! ## Helper lemmas -/

theorem addLogE_of_reset (s : EPage) (b : Bool) (m : String)
    (h : s.isReset = true) : addLogE s b m = s := by
  simp [addLogE, h]

theorem eStep_reset (mode : String) (s : EPage) (line : List Char)
    (h : s.isReset = true) :
    (eStep mode s line).logs = s.logs ∧ (eStep mode s line).isReset = true := by
  unfold eStep
  repeat' split
  all_goals
    simp_all [addLogE_of_reset, setErrorE, addLogE, h]

theorem eRunLines_reset (mode : String) (s : EPage) (lines : List (List Char))
    (h : s.isReset = true) :
    (eRunLines mode s lines).logs = s.logs := by
  induction lines generalizing s with
  | nil => rfl
  | cons l ls ih =>
    have h1 := eStep_reset mode s l h
    show (eRunLines mode (eStep mode s l) ls).logs = s.logs
    rw [ih _ h1.2, h1.1]

/-- After the abort-controller ref is nulled, a firing deadline timer only
consumes its pending flag: the guard `if (abortControllerRef.current)`
fails and `checkParsingStatus` is not invoked. -/
theorem timerFires_noop (cfg : PCfg) (st : StoreRead) (s : PCState)
    (hp : s.timerPending = true) (h : s.abortRef = false) :
    pstep cfg s (.timerFires st) = { s with timerPending := false } := by
  simp [pstep, hp, onTimerFires, h]

/-- The controller state after a validated `executeParsing` start. -/
theorem start_state (fid p : String) (hfid : fid.isEmpty = false)
    (hp : p.isEmpty = false) :
    prun (basicCfg fid p) [.start] =
      { logs := [(false, "=== Parse Execution Page Loaded ==="),
                 (false, "Initializing parser execution environment..."),
                 (false, "PDF2Data Parser Terminal v1.0.0"),
                 (false, "Initializing parsing environment..."),
                 (true, "parse --parser=" ++ p ++ " --file=" ++ fid),
                 (false, "Looking for extracted text file..."),
                 (false, "Preparing data for parsing..."),
                 (false, "Sending parsing request to server...")]
        loading := true, error := none, errorHistory := [], success := false
        timerPending := true, abortRef := true, requestInFlight := true
        inFlightAborted := false, networkCalls := 1, reconReads := 0 } := by
  show executeParsingStart (basicCfg fid p) pInit = _
  unfold executeParsingStart
  simp [pInit, basicCfg, optTruthy, hfid, hp, addLogP, pname]

/-- Resolution of a success response whose body parses and whose
`extraction_mode_used` does not make the transcript throw. -/
theorem response_ok_state (cfg : PCfg) (body : String) (j : JVal)
    (s : PCState) (status : Nat)
    (hin : s.requestInFlight = true)
    (hj : jsonParse body = some j) (hem : emSafe j = true) :
    pstep cfg s (.response { ok := true, status := status, body := body }) =
      { s with requestInFlight := false, success := true, loading := false,
               abortRef := false,
               logs := s.logs ++
                 [(false, "✓ Parsing completed successfully!"),
                  (false, "✓ Parser used: " ++
                     displayOpt (getProp j "parser_used")),
                  (false, "✓ Extraction method: " ++ emDisplay j),
                  (false, "✓ Data saved to database"),
                  (false, "✓ Output file: " ++
                     displayOpt (getProp j "saved_as")),
                  (false, "✓ Process completed!")] } := by
  have hstep : pstep cfg s
      (.response { ok := true, status := status, body := body }) =
      onResponse cfg { ok := true, status := status, body := body } s := by
    simp [pstep, hin]
  rw [hstep]
  unfold onResponse
  rcases hg : getProp j "extraction_mode_used" with _ | v
  · simp [hj, hg, emDisplay, addLogP]
  · cases v with
    | jnull => simp [hj, hg, emDisplay, addLogP]
    | jstr t => simp [hj, hg, emDisplay, addLogP]
    | jbool b => exfalso; rw [emSafe, hg] at hem; exact Bool.noConfusion hem
    | jnum raw => exfalso; rw [emSafe, hg] at hem; exact Bool.noConfusion hem
    | jarr xs => exfalso; rw [emSafe, hg] at hem; exact Bool.noConfusion hem
    | jobj fs => exfalso; rw [emSafe, hg] at hem; exact Bool.noConfusion hem

/-- Resolution of a non-2xx response whose body carries a truthy structured
`detail`: the thrown message is the detail, which lands verbatim (behind
"✗ ") in the Job Log, while the banner is the parser-dependent generic
message. -/
theorem response_err_state (cfg : PCfg) (body d : String) (status : Nat)
    (j : JVal) (s : PCState)
    (hin : s.requestInFlight = true)
    (hj : jsonParse body = some j)
    (hd : getProp j "detail" = some (.jstr d)) (hdne : d.isEmpty = false) :
    pstep cfg s (.response { ok := false, status := status, body := body }) =
      { s with requestInFlight := false, loading := false, abortRef := false,
               error := some (enhancedErrorMessage cfg d),
               errorHistory := s.errorHistory ++ [enhancedErrorMessage cfg d],
               logs := s.logs ++
                 [(false, "✗ ERROR: Parsing failed!"),
                  (false, "✗ " ++ d),
                  (false, "✗ Process terminated with exit code 1")] } := by
  have hstep : pstep cfg s
      (.response { ok := false, status := status, body := body }) =
      onResponse cfg { ok := false, status := status, body := body } s := by
    simp [pstep, hin]
  have hmsg : serverErrMsg status body = d := by
    unfold serverErrMsg
    simp [hj, hd, truthy, hdne, jsToString]
  rw [hstep]
  unfold onResponse
  simp [hmsg, catchGeneric, addLogP, setErrorP]

/-! ## Claims -/

/-- **C1.**  For every event stream and every way of splitting its
characters into chunks (mid-record splits and byte-at-a-time delivery
included), feeding the chunks through the reassembly loop of
`handleExtract`
produces exactly the classified-event sequence of single-chunk processing,
and the same final partial line carried in the tail buffer. -/
theorem C1_stream_chunking_invariant (mode : String)
    (chunks : List (List Char)) :
    streamRun mode chunks = streamRun mode [chunks.flatten] := by
  unfold streamRun
  rw [feedAll_eq_splitLines chunks [] (by simp),
      feedAll_eq_splitLines [chunks.flatten] [] (by simp)]
  simp

/-- **C9.**  Re-entrant starts are rejected as no-ops, never queued: while
an extraction job is loading, `handleExtract` returns immediately, and
while a parse request is active (`loading` with a live abort controller),
`executeParsing` returns immediately — the state, network-call count
included, is unchanged, so no second request is issued. -/
theorem C9_reentrant_start_noop (mode : String) (fileId : Option String)
    (s : EPage) (cfg : PCfg) (t : PCState)
    (hs : s.loading = true) (ht1 : t.loading = true) (ht2 : t.abortRef = true) :
    handleExtractStart mode fileId s = s ∧ pstep cfg t .start = t := by
  constructor
  · unfold handleExtractStart
    rw [if_pos (Or.inr hs)]
  · show executeParsingStart cfg t = t
    unfold executeParsingStart
    rw [ht1, ht2]
    rfl

/-- Witness for C9: a freshly started extraction page and a freshly started
parse controller both reject a second start. -/
theorem C9_reentrant_start_noop_witness :
    handleExtractStart "digital" (some "doc1")
        (handleExtractStart "digital" (some "doc1") eInit) =
      handleExtractStart "digital" (some "doc1") eInit ∧
    pstep cfgAI (prun cfgAI [.start]) .start = prun cfgAI [.start] :=
  C9_reentrant_start_noop "digital" (some "doc1")
    (handleExtractStart "digital" (some "doc1") eInit) cfgAI
    (prun cfgAI [.start]) rfl rfl rfl

/-- **C2.**  Deadline-first reconciliation, evaluated on the code.  The
present-branch of the claim holds: one store read, Succeeded, in-flight request
untouched — and since the verdict depends only on the stored `tables`
being non-empty, stale output resolves Succeeded identically.  The
absent-branch diverges from the claim: `checkParsingStatus` does set the
budget-naming message ("Parsing timed out after 120 seconds. ..."), but it
also aborts the still-pending parse request, whose `AbortError` handler
immediately overwrites the error state with "Parsing was cancelled." — the
job resolves Failed with a message that does not name the budget. -/
theorem C2_reconciliation_behaviour :
    (prun cfgAI [.start, .timerFires (.ok tablesOneBody)]).success = true ∧
    (prun cfgAI [.start, .timerFires (.ok tablesOneBody)]).error = none ∧
    (prun cfgAI [.start, .timerFires (.ok tablesOneBody)]).reconReads = 1 ∧
    (prun cfgAI [.start, .timerFires (.ok tablesOneBody)]).requestInFlight
      = true ∧
    (prun cfgAI [.start, .timerFires (.ok tablesOneBody)]).inFlightAborted
      = false ∧
    (prun cfgAI [.start, .timerFires (.ok tablesEmptyBody)]).success = false ∧
    (prun cfgAI [.start, .timerFires (.ok tablesEmptyBody)]).reconReads = 1 ∧
    (prun cfgAI [.start, .timerFires (.ok tablesEmptyBody)]).errorHistory =
      [timeoutDocMsg "AIParser", cancelledMsg] ∧
    (prun cfgAI [.start, .timerFires (.ok tablesEmptyBody)]).error =
      some cancelledMsg :=
  ⟨rfl, rfl, rfl, rfl, rfl, rfl, rfl, rfl, rfl⟩

/-- **C6.**  The timeout budget is the pure, start-chosen function
`timeoutDuration` of the parser identity — 120000 ms for `AIParser`,
materially larger than the 30000 ms default — and the Job Log of the
timed-out AI job names the 120-second budget.  But the final error state
is "Parsing was cancelled." (the budget-naming banner set by
`checkParsingStatus` is overwritten when the aborted parse request
rejects), and that message does not contain "120". -/
theorem C6_timeout_budget :
    timeoutDuration "AIParser" = 120000 ∧
    timeoutDuration "DaybookParser" = 90000 ∧
    timeoutDuration "SimpleParser" = 30000 ∧
    ((prun cfgAI [.start, .timerFires (.ok tablesEmptyBody)]).logs.filter
      (fun e => jsIncludes e.2 "120")).map Prod.snd =
      ["✗ Parser took longer than 120 seconds"] ∧
    jsIncludes (timeoutDocMsg "AIParser") "120" = true ∧
    (prun cfgAI [.start, .timerFires (.ok tablesEmptyBody)]).error =
      some cancelledMsg ∧
    jsIncludes cancelledMsg "120" = false :=
  ⟨rfl, rfl, rfl, rfl, rfl, rfl, rfl⟩

/-- **C3, counterexample.**  The claim says the deadline timer is cancelled
when the response arrives.  It is not: every `clearTimeout(timeoutId)`
reads the null timer id captured by the first-render closure, so after a
successful response the deadline timer is still pending. -/
theorem C3_counterexample_timer_still_pending :
    (prun cfgDefault [.start, .response okParseRes]).timerPending = true :=
  rfl

/-- **C4, counterexample.**  The claim says every malformed record emits
exactly one warning Job Log entry.  A record whose discriminator is
unknown is parsed fine, matches no branch, and is skipped with no log
entry at all; a record failing the brace validation likewise only gets a
`console.warn`.  Starting from an empty transcript, both leave it empty. -/
theorem C4_counterexample_silent_skip :
    malformedRecord mysteryLine = true ∧
    (eStep "digital" eInit mysteryLine).logs = [] ∧
    malformedRecord noBraceLine = true ∧
    (eStep "digital" eInit noBraceLine).logs = [] :=
  ⟨rfl, rfl, rfl, rfl⟩

/-- **C5, counterexample.**  The claim says cancellation is never surfaced
through the error channel and the final state is never Failed.  Cancelling
an active parse job sets the error state to "Parsing was cancelled." —
which the page renders as ✗ Failed. -/
theorem C5_counterexample_cancel_sets_error :
    (prun cfgDefault [.start, .cancel]).error = some cancelledMsg ∧
    (prun cfgDefault [.start, .cancel]).errorHistory = [cancelledMsg] :=
  ⟨rfl, rfl⟩

/-- **C7, counterexample.**  A 500 response with body
`\x7b"detail":"bad schema"\x7d` resolves Failed with the generic banner,
not with the message exactly "bad schema" (the detail only reaches the Job
Log, behind "✗ "). -/
theorem C7_counterexample_banner_not_verbatim :
    (prun cfgDefault [.start, .response res500]).error =
      some "Parsing failed. Please try again or select a different parser." ∧
    ("bad schema" : String) ≠
      "Parsing failed. Please try again or select a different parser." :=
  ⟨rfl, by decide⟩

/-- **C8, counterexample.**  The claim says the controller stops consuming
on an error record.  The loop has no break: a log record following the
error record is still classified and logged, and the error banner is the
generic "Extraction failed. Please try again.", not the message of the
record. -/
theorem C8_counterexample_keeps_consuming :
    (eRunLines "digital" eInit [errorRecordLine, afterLogLine]).logs =
      [(false, "✗ ERROR: boom"),
       (false, "✗ Process terminated with exit code 1"),
       (false, "after")] ∧
    (eRunLines "digital" eInit [errorRecordLine, afterLogLine]).error =
      some "Extraction failed. Please try again." ∧
    eventsOfLines "digital" [errorRecordLine, afterLogLine] =
      [.error "boom", .log "after"] :=
  ⟨rfl, rfl, rfl⟩

/-- **C10, counterexample.**  The claim says a failed reconciliation read
produces the same timeout-naming message as an absent-output read.  The
two branches word their banners differently (falling through `response.ok`
vs the catch handler), and both are finally overwritten by the
cancellation message. -/
theorem C10_counterexample_messages_differ :
    (prun cfgDefault [.start, .timerFires .netErr]).errorHistory.head? =
      some (timeoutOverloadedMsg "SimpleParser") ∧
    (prun cfgDefault
        [.start, .timerFires (.ok tablesEmptyBody)]).errorHistory.head? =
      some (timeoutDocMsg "SimpleParser") ∧
    timeoutOverloadedMsg "SimpleParser" ≠ timeoutDocMsg "SimpleParser" :=
  ⟨rfl, rfl, by decide⟩

/-- **C3, amended.**  A parse response that arrives (successfully) before
the deadline resolves the job Succeeded with zero reconciliation reads —
but not because the deadline timer is cancelled (it never is; the clear
reads a stale null id): when the still-pending timer later fires, the
abort-controller ref is already null, so the callback does nothing and
`checkParsingStatus` runs zero times. -/
theorem C3_success_response_resolution (fid p body : String) (j : JVal)
    (st : StoreRead) (status : Nat)
    (hfid : fid.isEmpty = false) (hp : p.isEmpty = false)
    (hj : jsonParse body = some j) (hem : emSafe j = true) :
    (prun (basicCfg fid p)
      [.start, .response { ok := true, status := status, body := body }]).success
      = true ∧
    (prun (basicCfg fid p)
      [.start, .response { ok := true, status := status, body := body }]).error
      = none ∧
    (prun (basicCfg fid p)
      [.start, .response { ok := true, status := status, body := body }]).reconReads
      = 0 ∧
    prun (basicCfg fid p)
      [.start, .response { ok := true, status := status, body := body },
       .timerFires st] =
      { prun (basicCfg fid p)
          [.start, .response { ok := true, status := status, body := body }] with
        timerPending := false } := by
  have hst := start_state fid p hfid hp
  have hresp := response_ok_state (basicCfg fid p) body j
      (prun (basicCfg fid p) [.start]) status (by rw [hst]) hj hem
  have hAB : prun (basicCfg fid p)
      [.start, .response { ok := true, status := status, body := body }] =
      pstep (basicCfg fid p) (prun (basicCfg fid p) [.start])
        (.response { ok := true, status := status, body := body }) := rfl
  refine ⟨?_, ?_, ?_, ?_⟩
  · rw [hAB, hresp]
  · rw [hAB, hresp]
    show (prun (basicCfg fid p) [.start]).error = none
    rw [hst]
  · rw [hAB, hresp]
    show (prun (basicCfg fid p) [.start]).reconReads = 0
    rw [hst]
  · have hfinal : prun (basicCfg fid p)
        [.start, .response { ok := true, status := status, body := body },
         .timerFires st] =
        pstep (basicCfg fid p)
          (prun (basicCfg fid p)
            [.start, .response { ok := true, status := status, body := body }])
          (.timerFires st) := rfl
    rw [hfinal]
    apply timerFires_noop
    · rw [hAB, hresp]
      show (prun (basicCfg fid p) [.start]).timerPending = true
      rw [hst]
    · rw [hAB, hresp]

/-- Witness for C3: the default parser answering with a well-formed result
body before the deadline. -/
theorem C3_success_response_resolution_witness :
    (prun (basicCfg "doc1" "SimpleParser")
      [.start, .response { ok := true, status := 200, body := okParseBody }]).success
      = true ∧
    (prun (basicCfg "doc1" "SimpleParser")
      [.start, .response { ok := true, status := 200, body := okParseBody }]).error
      = none ∧
    (prun (basicCfg "doc1" "SimpleParser")
      [.start, .response { ok := true, status := 200, body := okParseBody }]).reconReads
      = 0 ∧
    prun (basicCfg "doc1" "SimpleParser")
      [.start, .response { ok := true, status := 200, body := okParseBody },
       .timerFires .httpErr] =
      { prun (basicCfg "doc1" "SimpleParser")
          [.start, .response { ok := true, status := 200, body := okParseBody }] with
        timerPending := false } :=
  C3_success_response_resolution "doc1" "SimpleParser" okParseBody okParseJ
    .httpErr 200 rfl rfl rfl rfl

/-- **C7, amended.**  A non-2xx parse response before the deadline resolves
the job Failed; the structured server `detail` is surfaced verbatim in a
Job Log line (behind the "✗ " marker), while the error banner is the
parser-dependent generic message — for non-AI parsers, "Parsing failed.
Please try again or select a different parser." -/
theorem C7_server_error_mapping (fid p body d : String) (status : Nat)
    (j : JVal)
    (hfid : fid.isEmpty = false) (hp : p.isEmpty = false)
    (hpAI : p ≠ "AIParser")
    (hj : jsonParse body = some j)
    (hd : getProp j "detail" = some (.jstr d)) (hdne : d.isEmpty = false) :
    (prun (basicCfg fid p)
      [.start, .response { ok := false, status := status, body := body }]).error
      = some "Parsing failed. Please try again or select a different parser." ∧
    (prun (basicCfg fid p)
      [.start, .response { ok := false, status := status, body := body }]).logs
      = (prun (basicCfg fid p) [.start]).logs ++
          [(false, "✗ ERROR: Parsing failed!"), (false, "✗ " ++ d),
           (false, "✗ Process terminated with exit code 1")] ∧
    (prun (basicCfg fid p)
      [.start, .response { ok := false, status := status, body := body }]).success
      = false := by
  have hst := start_state fid p hfid hp
  have hresp := response_err_state (basicCfg fid p) body d status j
      (prun (basicCfg fid p) [.start]) (by rw [hst]) hj hd hdne
  have hAB : prun (basicCfg fid p)
      [.start, .response { ok := false, status := status, body := body }] =
      pstep (basicCfg fid p) (prun (basicCfg fid p) [.start])
        (.response { ok := false, status := status, body := body }) := rfl
  have henh : enhancedErrorMessage (basicCfg fid p) d =
      "Parsing failed. Please try again or select a different parser." := by
    unfold enhancedErrorMessage pname basicCfg
    simp [hpAI]
  refine ⟨?_, ?_, ?_⟩
  · rw [hAB, hresp]
    show some (enhancedErrorMessage (basicCfg fid p) d) = _
    rw [henh]
  · rw [hAB, hresp]
  · rw [hAB, hresp]
    show (prun (basicCfg fid p) [.start]).success = false
    rw [hst]

/-- Witness for C7: the scenario of the spec — default parser, status 500,
body
`\x7b"detail":"bad schema"\x7d`. -/
theorem C7_server_error_mapping_witness :
    (prun (basicCfg "doc1" "SimpleParser")
      [.start, .response { ok := false, status := 500, body := detail500Body }]).error
      = some "Parsing failed. Please try again or select a different parser." ∧
    (prun (basicCfg "doc1" "SimpleParser")
      [.start, .response { ok := false, status := 500, body := detail500Body }]).logs
      = (prun (basicCfg "doc1" "SimpleParser") [.start]).logs ++
          [(false, "✗ ERROR: Parsing failed!"), (false, "✗ " ++ "bad schema"),
           (false, "✗ Process terminated with exit code 1")] ∧
    (prun (basicCfg "doc1" "SimpleParser")
      [.start, .response { ok := false, status := 500, body := detail500Body }]).success
      = false :=
  C7_server_error_mapping "doc1" "SimpleParser" detail500Body "bad schema" 500
    detail500J rfl rfl (by decide) rfl rfl rfl

/-- **C5, amended.**  Cancellation behaviour as implemented.  Extraction:
`resetTerminal` sets the reset flag, so every subsequent `addLog` — even
from an already-buffered chunk — is suppressed: the Job Log stays cleared
and never grows again.  Parse: cancelling an active job aborts the request
and the `AbortError` handler resolves it with the error state "Parsing was
cancelled." — cancellation IS surfaced through the error channel there,
and the page renders it as ✗ Failed rather than a distinct Cancelled
state. -/
theorem C5_cancellation_behaviour (mode : String) (s : EPage)
    (lines : List (List Char)) :
    (eRunLines mode (resetTerminal s) lines).logs = [] ∧
    (prun cfgDefault [.start, .cancel]).error = some cancelledMsg ∧
    (prun cfgDefault [.start, .cancel]).success = false ∧
    (prun cfgDefault [.start, .cancel]).loading = false := by
  refine ⟨?_, rfl, rfl, rfl⟩
  rw [eRunLines_reset mode (resetTerminal s) lines rfl]
  rfl

/-- **C8, amended.**  A streamed error record appends two log lines — the
first embedding the message of the record verbatim after "✗ ERROR: " —
and sets
the generic error banner "Extraction failed. Please try again."; the loop
does not break, so consumption of the remaining lines continues
unchanged. -/
theorem C8_error_record_behaviour (mode : String) (s : EPage)
    (line p : List Char) (j : JVal) (m : String) (post : List (List Char))
    (hp : recordPayload line = some p) (hne : p.isEmpty = false)
    (hbr : bracesOk p = true) (hj : jsonParse (String.mk p) = some j)
    (hl : isTypeTag j "log" = false) (hs : isTypeTag j "success" = false)
    (ht : isTypeTag j "error" = true)
    (hmsg : getProp j "message" = some (.jstr m))
    (hr : s.isReset = false) :
    eStep mode s line =
      { s with logs := s.logs ++
                 [(false, "✗ ERROR: " ++ m),
                  (false, "✗ Process terminated with exit code 1")],
               error := some "Extraction failed. Please try again." } ∧
    eRunLines mode s (line :: post) = eRunLines mode (eStep mode s line) post := by
  refine ⟨?_, rfl⟩
  unfold eStep
  rw [hp]
  simp [hne, hbr, hj, hl, hs, ht, hmsg, addLogE, hr, setErrorE, displayOpt,
        jsToString]

/-- Witness for C8: the error record `\x7b"type":"error","message":"boom"\x7d`
followed by an empty remainder. -/
theorem C8_error_record_behaviour_witness :
    eStep "digital" eInit errorRecordLine =
      { eInit with logs := eInit.logs ++
                     [(false, "✗ ERROR: " ++ "boom"),
                      (false, "✗ Process terminated with exit code 1")],
                   error := some "Extraction failed. Please try again." } ∧
    eRunLines "digital" eInit (errorRecordLine :: []) =
      eRunLines "digital" (eStep "digital" eInit errorRecordLine) [] :=
  C8_error_record_behaviour "digital" eInit errorRecordLine
    (("\x7b\"type\":\"error\",\"message\":\"boom\"\x7d").data)
    (.jobj [("type", .jstr "error"), ("message", .jstr "boom")]) "boom" []
    rfl rfl rfl rfl rfl rfl rfl rfl rfl

/-- A record whose payload fails the brace validation: skipped with only a
console diagnostic; no event, no state change. -/
theorem classify_eStep_bad_braces (mode : String) (s : EPage)
    (line p : List Char)
    (hp : recordPayload line = some p) (hne : p.isEmpty = false)
    (hbr : bracesOk p = false) :
    classifyLine mode line = none ∧ eStep mode s line = s := by
  constructor
  · unfold classifyLine; rw [hp]; simp [hne, hbr]
  · unfold eStep; rw [hp]; simp [hne, hbr]

/-- A well-delimited payload `JSON.parse` throws on: skipped with exactly
one warning log entry. -/
theorem classify_eStep_bad_json (mode : String) (s : EPage)
    (line p : List Char)
    (hp : recordPayload line = some p) (hne : p.isEmpty = false)
    (hbr : bracesOk p = true) (hj : jsonParse (String.mk p) = none) :
    classifyLine mode line = none ∧
    eStep mode s line = addLogE s false (warnLine line) := by
  constructor
  · unfold classifyLine; rw [hp]; simp [hne, hbr, hj]
  · unfold eStep; rw [hp]; simp [hne, hbr, hj]

/-- A parsed record with an unrecognised discriminator: matches no branch,
skipped silently. -/
theorem classify_eStep_unknown_tag (mode : String) (s : EPage)
    (line p : List Char) (j : JVal)
    (hp : recordPayload line = some p) (hne : p.isEmpty = false)
    (hbr : bracesOk p = true) (hj : jsonParse (String.mk p) = some j)
    (hl : isTypeTag j "log" = false) (hs : isTypeTag j "success" = false)
    (he : isTypeTag j "error" = false) :
    classifyLine mode line = none ∧ eStep mode s line = s := by
  constructor
  · unfold classifyLine; rw [hp]; simp [hne, hbr, hj, hl, hs, he]
  · unfold eStep; rw [hp]; simp [hne, hbr, hj, hl, hs, he]

/-- **C4, amended.**  A malformed record — delimiter-failing payload,
well-delimited but unparseable payload, or unknown discriminator — never
throws (the step is total), never changes the error state, yields no
classified event, and never stops the stream: the fold continues and
surrounding records classify exactly as if the malformed record were
absent.  Its Job Log effect is at most one entry: exactly one warning when
`JSON.parse` threw, nothing otherwise (the delimiter check only warns on
the console, and an unknown discriminator matches no branch). -/
theorem C4_malformed_record_recovery (mode : String) (s : EPage)
    (line : List Char) (pre post : List (List Char))
    (hm : malformedRecord line = true) :
    classifyLine mode line = none ∧
    (eStep mode s line).error = s.error ∧
    ((eStep mode s line).logs = s.logs ∨
     (eStep mode s line).logs = s.logs ++ [(false, warnLine line)]) ∧
    eventsOfLines mode (pre ++ line :: post) =
      eventsOfLines mode pre ++ eventsOfLines mode post ∧
    eRunLines mode s (line :: post) = eRunLines mode (eStep mode s line) post := by
  have key : classifyLine mode line = none ∧
      (eStep mode s line = s ∨
       eStep mode s line = addLogE s false (warnLine line)) := by
    rcases hp : recordPayload line with _ | p
    · exfalso
      have hf : malformedRecord line = false := by
        unfold malformedRecord; rw [hp]
      rw [hf] at hm; exact Bool.noConfusion hm
    by_cases hne : p.isEmpty = true
    · exfalso
      have hf : malformedRecord line = false := by
        unfold malformedRecord; rw [hp]; simp [hne]
      rw [hf] at hm; exact Bool.noConfusion hm
    have hne' : p.isEmpty = false := by revert hne; cases p.isEmpty <;> simp
    by_cases hbr : bracesOk p = true
    case neg =>
      have hbr' : bracesOk p = false := by revert hbr; cases bracesOk p <;> simp
      have h := classify_eStep_bad_braces mode s line p hp hne' hbr'
      exact ⟨h.1, Or.inl h.2⟩
    case pos =>
      rcases hj : jsonParse (String.mk p) with _ | j
      · have h := classify_eStep_bad_json mode s line p hp hne' hbr hj
        exact ⟨h.1, Or.inr h.2⟩
      by_cases hl : isTypeTag j "log" = true
      · exfalso
        have hf : malformedRecord line = false := by
          unfold malformedRecord; rw [hp]; simp [hne', hbr, hj, hl]
        rw [hf] at hm; exact Bool.noConfusion hm
      by_cases hs2 : isTypeTag j "success" = true
      · exfalso
        have hf : malformedRecord line = false := by
          unfold malformedRecord; rw [hp]; simp [hne', hbr, hj, hs2]
        rw [hf] at hm; exact Bool.noConfusion hm
      by_cases he : isTypeTag j "error" = true
      · exfalso
        have hf : malformedRecord line = false := by
          unfold malformedRecord; rw [hp]; simp [hne', hbr, hj, he]
        rw [hf] at hm; exact Bool.noConfusion hm
      have hl' : isTypeTag j "log" = false := by
        revert hl; cases isTypeTag j "log" <;> simp
      have hs' : isTypeTag j "success" = false := by
        revert hs2; cases isTypeTag j "success" <;> simp
      have he' : isTypeTag j "error" = false := by
        revert he; cases isTypeTag j "error" <;> simp
      have h := classify_eStep_unknown_tag mode s line p j hp hne' hbr hj
        hl' hs' he'
      exact ⟨h.1, Or.inl h.2⟩
  refine ⟨key.1, ?_, ?_, ?_, rfl⟩
  · rcases key.2 with h | h
    · rw [h]
    · rw [h]; unfold addLogE; split <;> rfl
  · rcases key.2 with h | h
    · exact Or.inl (by rw [h])
    · rw [h]; unfold addLogE
      split
      · exact Or.inl rfl
      · exact Or.inr rfl
  · simp [eventsOfLines, List.filterMap_append, List.filterMap_cons, key.1]

/-- Witness for C4: the unknown-discriminator record
`data: \x7b"type":"mystery"\x7d` between two empty surroundings. -/
theorem C4_malformed_record_recovery_witness :
    malformedRecord mysteryLine = true ∧
    (classifyLine "digital" mysteryLine = none ∧
     (eStep "digital" eInit mysteryLine).error = eInit.error ∧
     ((eStep "digital" eInit mysteryLine).logs = eInit.logs ∨
      (eStep "digital" eInit mysteryLine).logs =
        eInit.logs ++ [(false, warnLine mysteryLine)]) ∧
     eventsOfLines "digital" ([] ++ mysteryLine :: []) =
       eventsOfLines "digital" [] ++ eventsOfLines "digital" [] ∧
     eRunLines "digital" eInit (mysteryLine :: []) =
       eRunLines "digital" (eStep "digital" eInit mysteryLine) []) :=
  ⟨rfl, C4_malformed_record_recovery "digital" eInit mysteryLine [] [] rfl⟩

/-- **C10, amended.**  When the reconciliation read fails — the status
request rejects, or returns non-OK (or its body does not parse) — the job
never resolves Succeeded and no distinct error kind is surfaced: the read
performed exactly once, the original in-flight request is aborted at that
point, and a timeout banner is set (sharing the "Parsing timed out after
N seconds." opening with the absent-output case but with a different
trailing sentence in the rejected-read case) — which the cancellation
handler then overwrites with "Parsing was cancelled.". -/
theorem C10_recon_read_failure (fid p : String) (st : StoreRead)
    (hfid : fid.isEmpty = false) (hp : p.isEmpty = false)
    (hst : st = .netErr ∨ st = .httpErr) :
    (prun (basicCfg fid p) [.start, .timerFires st]).success = false ∧
    (prun (basicCfg fid p) [.start, .timerFires st]).inFlightAborted = true ∧
    (prun (basicCfg fid p) [.start, .timerFires st]).reconReads = 1 ∧
    (prun (basicCfg fid p) [.start, .timerFires st]).error
      = some cancelledMsg ∧
    ((prun (basicCfg fid p) [.start, .timerFires st]).errorHistory =
       [timeoutOverloadedMsg p, cancelledMsg] ∨
     (prun (basicCfg fid p) [.start, .timerFires st]).errorHistory =
       [timeoutDocMsg p, cancelledMsg]) := by
  have hstart := start_state fid p hfid hp
  have hAB : prun (basicCfg fid p) [.start, .timerFires st] =
      pstep (basicCfg fid p) (prun (basicCfg fid p) [.start])
        (.timerFires st) := rfl
  rcases hst with h | h <;> subst h
  · rw [hAB, hstart]
    refine ⟨?_, ?_, ?_, ?_, Or.inl ?_⟩ <;>
      simp [pstep, onTimerFires, checkParsingStatus, reconFailTail,
            onAbortError, addLogP, setErrorP, optTruthy, hfid, basicCfg,
            pname]
  · rw [hAB, hstart]
    refine ⟨?_, ?_, ?_, ?_, Or.inr ?_⟩ <;>
      simp [pstep, onTimerFires, checkParsingStatus, reconFailTail,
            onAbortError, addLogP, setErrorP, optTruthy, hfid, basicCfg,
            pname]

/-- Witness for C10: the reconciliation read rejecting outright. -/
theorem C10_recon_read_failure_witness :
    (prun (basicCfg "doc1" "SimpleParser")
      [.start, .timerFires .netErr]).success = false ∧
    (prun (basicCfg "doc1" "SimpleParser")
      [.start, .timerFires .netErr]).inFlightAborted = true ∧
    (prun (basicCfg "doc1" "SimpleParser")
      [.start, .timerFires .netErr]).reconReads = 1 ∧
    (prun (basicCfg "doc1" "SimpleParser")
      [.start, .timerFires .netErr]).error = some cancelledMsg ∧
    ((prun (basicCfg "doc1" "SimpleParser")
        [.start, .timerFires .netErr]).errorHistory =
       [timeoutOverloadedMsg "SimpleParser", cancelledMsg] ∨
     (prun (basicCfg "doc1" "SimpleParser")
        [.start, .timerFires .netErr]).errorHistory =
       [timeoutDocMsg "SimpleParser", cancelledMsg]) :=
  C10_recon_read_failure "doc1" "SimpleParser" .netErr rfl rfl (Or.inl rfl)

end Pdf2Data
